import Mathlib

/-!
Verification of the Welshare Nillion key-derivation module (`key_derivation.py`).

Modelling conventions:
- byte strings are `List Nat` with each element intended to be `< 256`;
- Python exceptions become `Except String`; the `ValueError` raised by
  `ensure_valid_secp256k1_key` on loop exhaustion (the failure the spec calls
  `DerivationExhausted`) is modelled as the error value `"DerivationExhausted"`;
- external library primitives are abstract function parameters:
  `hmacF key msg` models `hmac.new(key, msg, hashlib.sha256).digest()` from
  Python's standard library, `signF` models `sign_eip712_message` (eth_account),
  `pubkeyF` models `SigningKey.from_string(sk, SECP256k1).get_verifying_key().to_string()`
  (the ecdsa library, returning the 64-byte uncompressed public key), and
  `ethAddrF` models `Account.from_key(sk).address`;
- everything else (canonical JSON encoding, HKDF structure, the curve-validity
  retry loop, compressed-key and DID construction, round-trip verification) is
  transcribed from the source.
-/

namespace KeyDerivation

/-- UTF-8 encoding of a single Unicode code point (scalar values only, which is
all `Char.toNat` produces). -/
def utf8EncodeChar (c : Nat) : List Nat :=
  if c < 0x80 then [c]
  else if c < 0x800 then [0xC0 + c / 64, 0x80 + c % 64]
  else if c < 0x10000 then [0xE0 + c / 4096, 0x80 + c / 64 % 64, 0x80 + c % 64]
  else [0xF0 + c / 262144, 0x80 + c / 4096 % 64, 0x80 + c / 64 % 64, 0x80 + c % 64]

/-- Byte encoding of a string, as Python's `str.encode('utf-8')`. -/
def strBytes (s : String) : List Nat :=
  (s.data.map (fun c => utf8EncodeChar c.toNat)).flatten

/-- Constant `COMMON_KDF_SALT = b"SIGNATURE_INTEGRATED_KDF_v1"` from the source. -/
def COMMON_KDF_SALT : List Nat := strBytes "SIGNATURE_INTEGRATED_KDF_v1"

/-- Constant `SECP256K1_ORDER` from the source. -/
def SECP256K1_ORDER : Nat :=
  0xFFFFFFFFFFFFFFFFFFFFFFFFFFFFFFFEBAAEDCE6AF48A03BBFD25E8CD0364141

/-- Dataclass `SessionKeyAuthMessage` (fields `key_id`, `context`). -/
structure SessionKeyAuthMessage where
  key_id : String
  context : String
deriving DecidableEq

/-- Dataclass `DerivedNillionKeypair` from the source. -/
structure DerivedNillionKeypair where
  did : String
  private_key : List Nat
  public_key_compressed : List Nat
  public_key_uncompressed : List Nat
  ethereum_address : String
  auth_message : SessionKeyAuthMessage
  eip712_signature : List Nat
deriving DecidableEq

/-- Lowercase hexadecimal digit, as Python's `'%x'` formatting. -/
def hexDigitChar (n : Nat) : Char :=
  if n < 10 then Char.ofNat (48 + n) else Char.ofNat (87 + n)

/-- The two lowercase hex characters of one byte. -/
def byteToHex (b : Nat) : List Char := [hexDigitChar (b / 16 % 16), hexDigitChar (b % 16)]

/-- Lowercase hex encoding of a byte string, as Python's `bytes.hex()`. -/
def bytesToHex (bs : List Nat) : String := String.mk ((bs.map byteToHex).flatten)

/-- Four lowercase hex characters of a 16-bit value, as in Python's `'\\u%04x'`. -/
def hex4 (n : Nat) : List Char :=
  [hexDigitChar (n / 4096 % 16), hexDigitChar (n / 256 % 16),
   hexDigitChar (n / 16 % 16), hexDigitChar (n % 16)]

/-- Escaping of one character by Python's `json.dumps` (default `ensure_ascii=True`):
quote and backslash get a backslash escape, the five control characters with short
escapes use them, other characters outside the printable ASCII range `0x20..0x7E`
become `\\uXXXX` (astral code points as a surrogate pair), and printable ASCII is
emitted unchanged. -/
def jsonEscapeChar (c : Nat) : List Char :=
  if c = 34 then ['\\', '"']
  else if c = 92 then ['\\', '\\']
  else if c = 8 then ['\\', 'b']
  else if c = 9 then ['\\', 't']
  else if c = 10 then ['\\', 'n']
  else if c = 12 then ['\\', 'f']
  else if c = 13 then ['\\', 'r']
  else if 32 ≤ c ∧ c ≤ 126 then [Char.ofNat c]
  else if c < 0x10000 then '\\' :: 'u' :: hex4 c
  else ('\\' :: 'u' :: hex4 (0xD800 + (c - 0x10000) / 1024)) ++
       ('\\' :: 'u' :: hex4 (0xDC00 + (c - 0x10000) % 1024))

/-- Serialization of one string value by `json.dumps`: a double-quoted,
character-wise escaped string. -/
def jsonStringPy (s : String) : String :=
  "\"" ++ String.mk ((s.data.map (fun c => jsonEscapeChar c.toNat)).flatten) ++ "\""

/-- Body of `json.dumps(d, separators=(',', ':'))` for a dict with string keys and
string values, iterated in insertion order: the comma-joined `key:value` pairs. -/
def joinPairs : List (String × String) → String
  | [] => ""
  | [kv] => jsonStringPy kv.1 ++ ":" ++ jsonStringPy kv.2
  | kv :: rest => jsonStringPy kv.1 ++ ":" ++ jsonStringPy kv.2 ++ "," ++ joinPairs rest

/-- Python `json.dumps(d, separators=(',', ':'))` on an insertion-ordered dict with
string keys and values. -/
def jsonDumpsObj (kvs : List (String × String)) : String :=
  "\x7b" ++ joinPairs kvs ++ "\x7d"

/-- Method `SessionKeyAuthMessage.to_dict`: an insertion-ordered dict putting
`"context"` first, then `"keyId"`, modelled as an association list. -/
def to_dict (m : SessionKeyAuthMessage) : List (String × String) :=
  [("context", m.context), ("keyId", m.key_id)]

/-- The derivation data of `derive_nillion_keypair` step 2:
`json.dumps(auth_message.to_dict(), separators=(',', ':')).encode('utf-8')`. -/
def derivationData (m : SessionKeyAuthMessage) : List Nat :=
  strBytes (jsonDumpsObj (to_dict m))

/-- Function `hkdf` from the source, parameterized by the HMAC-SHA-256 primitive
`hmacF`. Extract: `prk = hmacF salt ikm`; expand: for `i = 1 .. ceil(len/32)`,
`t = hmacF prk (t ++ info ++ [i])`, concatenating all `t` and truncating.
(Python's `bytes([i])` requires `i < 256`; all callers use `output_length = 32`,
hence a single block.) -/
def hkdf (hmacF : List Nat → List Nat → List Nat)
    (input_key_material context_information salt : List Nat)
    (output_length : Nat) : List Nat :=
  let pseudo_random_key := hmacF salt input_key_material
  let n := (output_length + 32 - 1) / 32
  let st := (List.range n).foldl
    (fun st i =>
      let t := hmacF pseudo_random_key (st.1 ++ context_information ++ [i + 1])
      (t, st.2 ++ t))
    (([] : List Nat), ([] : List Nat))
  st.2.take output_length

/-- Function `bytes_to_int`: big-endian interpretation, `int.from_bytes(data, 'big')`. -/
def bytes_to_int (data : List Nat) : Nat :=
  data.foldl (fun acc b => acc * 256 + b) 0

/-- Python `counter.to_bytes(4, byteorder='big')`. -/
def toBytes4BE (n : Nat) : List Nat :=
  [n / 2 ^ 24 % 256, n / 2 ^ 16 % 256, n / 2 ^ 8 % 256, n % 256]

/-- The info string `b"SECP256K1_RETRY"` used by the retry path. -/
def SECP256K1_RETRY_INFO : List Nat := strBytes "SECP256K1_RETRY"

/-- The range check `0 < key_value < SECP256K1_ORDER` on a candidate byte string. -/
def validScalar (candidate : List Nat) : Prop :=
  0 < bytes_to_int candidate ∧ bytes_to_int candidate < SECP256K1_ORDER

instance (c : List Nat) : Decidable (validScalar c) := by
  unfold validScalar; infer_instance

/-- Error value modelling the `ValueError` raised on loop exhaustion (the failure
the specification names `DerivationExhausted`). -/
def exhaustedMsg : String := "DerivationExhausted"

/-- The `while counter < max_attempts` loop of `ensure_valid_secp256k1_key`,
with `fuel = max_attempts - counter`. Each iteration checks the current candidate
and, when it is out of range, re-derives
`hkdf(candidate || be32(counter+1), "SECP256K1_RETRY", salt = derivation_data, 32)`. -/
def ensureValidGo (hmacF : List Nat → List Nat → List Nat) (derivation_data : List Nat) :
    List Nat → Nat → Nat → Except String (List Nat)
  | _, _, 0 => .error exhaustedMsg
  | candidate, counter, fuel + 1 =>
    if validScalar candidate then .ok candidate
    else
      ensureValidGo hmacF derivation_data
        (hkdf hmacF (candidate ++ toBytes4BE (counter + 1)) SECP256K1_RETRY_INFO
          derivation_data 32)
        (counter + 1) fuel

/-- Function `ensure_valid_secp256k1_key` from the source (the source default for
`max_attempts` is 1000; it is passed explicitly here). -/
def ensure_valid_secp256k1_key (hmacF : List Nat → List Nat → List Nat)
    (key_material derivation_data : List Nat) (max_attempts : Nat) :
    Except String (List Nat) :=
  ensureValidGo hmacF derivation_data key_material 0 max_attempts

/-- Function `derive_nillion_keypair` from the source, parameterized by the
external primitives. The source defaults `user_secret` to `"user@secret.com"`;
it is passed explicitly here. `y_coord[-1]` in Python indexes the last byte of the
64-byte uncompressed key; it is modelled with `getLastD`. -/
def derive_nillion_keypair
    (hmacF : List Nat → List Nat → List Nat)
    (signF : List Nat → SessionKeyAuthMessage → List Nat)
    (pubkeyF : List Nat → List Nat)
    (ethAddrF : List Nat → String)
    (ethereum_private_key : List Nat)
    (auth_message : SessionKeyAuthMessage)
    (user_secret : String) : Except String DerivedNillionKeypair :=
  let binding_signature := signF ethereum_private_key auth_message
  let derivation_data := derivationData auth_message
  let input_key_material := strBytes user_secret ++ binding_signature
  let derived_key_material :=
    hkdf hmacF input_key_material derivation_data COMMON_KDF_SALT 32
  match ensure_valid_secp256k1_key hmacF derived_key_material derivation_data 1000 with
  | .error e => .error e
  | .ok private_key =>
    let public_key_uncompressed := pubkeyF private_key
    let x_coord := public_key_uncompressed.take 32
    let y_coord := public_key_uncompressed.drop 32
    let public_key_compressed :=
      (if y_coord.getLastD 0 % 2 = 1 then [3] else [2]) ++ x_coord
    .ok { did := "did:nil:" ++ bytesToHex public_key_compressed
          private_key := private_key
          public_key_compressed := public_key_compressed
          public_key_uncompressed := public_key_uncompressed
          ethereum_address := ethAddrF ethereum_private_key
          auth_message := auth_message
          eip712_signature := binding_signature }

/-- Function `verify_derived_keypair` from the source: re-derives with the stored
`auth_message`, the same Ethereum private key, and the default `user_secret`
`"user@secret.com"`, then compares `did`, `private_key`, `public_key_compressed`
and `eip712_signature`. A `ValueError` from re-derivation propagates. -/
def verify_derived_keypair
    (hmacF : List Nat → List Nat → List Nat)
    (signF : List Nat → SessionKeyAuthMessage → List Nat)
    (pubkeyF : List Nat → List Nat)
    (ethAddrF : List Nat → String)
    (keypair : DerivedNillionKeypair)
    (ethereum_private_key : List Nat) : Except String Bool :=
  (derive_nillion_keypair hmacF signF pubkeyF ethAddrF ethereum_private_key
      keypair.auth_message "user@secret.com").map
    (fun re_derived =>
      re_derived.did == keypair.did &&
      re_derived.private_key == keypair.private_key &&
      re_derived.public_key_compressed == keypair.public_key_compressed &&
      re_derived.eip712_signature == keypair.eip712_signature)

instance {ε α : Type} [DecidableEq ε] [DecidableEq α] : DecidableEq (Except ε α)
  | .error e, .error f =>
    if h : e = f then .isTrue (congrArg Except.error h)
    else .isFalse (fun hh => h (Except.error.inj hh))
  | .error _, .ok _ => .isFalse (fun hh => Except.noConfusion hh)
  | .ok _, .error _ => .isFalse (fun hh => Except.noConfusion hh)
  | .ok a, .ok b =>
    if h : a = b then .isTrue (congrArg Except.ok h)
    else .isFalse (fun hh => h (Except.ok.inj hh))

/-- Modelled from the spec, section 4.3: the chained blocks
`T(0) = empty`, `T(i) = HMAC(prk, T(i-1) || info || byte(i))`. -/
def hkdfSpecT (hmacF : List Nat → List Nat → List Nat) (prk info : List Nat) :
    Nat → List Nat
  | 0 => []
  | i + 1 => hmacF prk (hkdfSpecT hmacF prk info i ++ info ++ [i + 1])

/-- Modelled from the spec, section 4.3: the concatenation `T(1) || ... || T(n)`. -/
def hkdfSpecConcat (hmacF : List Nat → List Nat → List Nat) (prk info : List Nat) :
    Nat → List Nat
  | 0 => []
  | n + 1 => hkdfSpecConcat hmacF prk info n ++ hkdfSpecT hmacF prk info (n + 1)

/-- Modelled from the spec, section 4.3: the extract-then-expand reference for
`hkdf`: `prk = HMAC(salt, ikm)`; output is `T(1) || ... || T(ceil(len/32))`
truncated to `outputLen` bytes. -/
def hkdfSpec (hmacF : List Nat → List Nat → List Nat)
    (ikm info salt : List Nat) (outputLen : Nat) : List Nat :=
  let prk := hmacF salt ikm
  (hkdfSpecConcat hmacF prk info ((outputLen + 31) / 32)).take outputLen

/-- The sequence of candidates examined by `ensure_valid_secp256k1_key`: the
initial key material, then each re-derivation
`hkdf(candidate || be32(i), "SECP256K1_RETRY", salt = derivation_data, 32)` with
the 4-byte big-endian counter `i` taking values 1, 2, 3, ... -/
def candidateSeq (hmacF : List Nat → List Nat → List Nat)
    (derivation_data initial : List Nat) : Nat → List Nat
  | 0 => initial
  | i + 1 =>
    hkdf hmacF (candidateSeq hmacF derivation_data initial i ++ toBytes4BE (i + 1))
      SECP256K1_RETRY_INFO derivation_data 32

/-- The number of times the loop body of `ensure_valid_secp256k1_key` runs
(same recursion structure as `ensureValidGo`). -/
def ensureValidIters (hmacF : List Nat → List Nat → List Nat) (derivation_data : List Nat) :
    List Nat → Nat → Nat → Nat
  | _, _, 0 => 0
  | candidate, counter, fuel + 1 =>
    if validScalar candidate then 1
    else
      1 + ensureValidIters hmacF derivation_data
        (hkdf hmacF (candidate ++ toBytes4BE (counter + 1)) SECP256K1_RETRY_INFO
          derivation_data 32)
        (counter + 1) fuel

/-- Concrete stand-in for the HMAC-SHA-256 primitive, used to instantiate the
abstract parameter in witnesses: always returns 32 bytes. -/
def hmacF0 (key msg : List Nat) : List Nat := (key ++ msg ++ List.replicate 32 1).take 32

/-- Concrete HMAC stand-in that always returns the all-zero block (the synthetic
stub of the exhaustion-boundary property: every derived candidate has value 0). -/
def hmacFBad (_key _msg : List Nat) : List Nat := List.replicate 32 0

/-- Concrete stand-in for the EIP-712 signing primitive: a fixed 65-byte value. -/
def signF0 (_sk : List Nat) (_m : SessionKeyAuthMessage) : List Nat := List.replicate 65 7

/-- Concrete stand-in for secp256k1 scalar-to-point serialization: always 64 bytes. -/
def pubkeyF0 (sk : List Nat) : List Nat := (sk ++ List.replicate 64 9).take 64

/-- Concrete stand-in for the Ethereum address computation. -/
def ethAddrF0 (_sk : List Nat) : String := "0xaddr"

/-- A concrete 32-byte source private key. -/
def k0 : List Nat := List.replicate 32 5

/-- The spec's example auth message: `key_id = "1"`, `context = "nillion"`. -/
def m0 : SessionKeyAuthMessage := ⟨"1", "nillion"⟩

/-- The all-zero 32-byte string (an out-of-range scalar candidate). -/
def zeros32 : List Nat := List.replicate 32 0

/-- Placeholder keypair used only as the default branch of `okOr`. -/
def dummyKeypair : DerivedNillionKeypair :=
  { did := "", private_key := [], public_key_compressed := [],
    public_key_uncompressed := [], ethereum_address := "",
    auth_message := ⟨"", ""⟩, eip712_signature := [] }

/-- Extracts the keypair of a successful derivation. -/
def okOr (e : Except String DerivedNillionKeypair) (d : DerivedNillionKeypair) :
    DerivedNillionKeypair :=
  match e with
  | .ok kp => kp
  | .error _ => d

/-- The keypair derived from `k0`, `m0` and the default application secret under
the concrete stand-in primitives. -/
def kp0 : DerivedNillionKeypair :=
  okOr (derive_nillion_keypair hmacF0 signF0 pubkeyF0 ethAddrF0 k0 m0 "user@secret.com")
    dummyKeypair

/-- The same keypair with its stored uncompressed public key corrupted. -/
def kp0Tampered : DerivedNillionKeypair := { kp0 with public_key_uncompressed := [] }

theorem strBytes_append (s t : String) : strBytes (s ++ t) = strBytes s ++ strBytes t := by
  simp [strBytes, String.data_append]

theorem bytes_to_int_parity (l : List Nat) : bytes_to_int l % 2 = l.getLastD 0 % 2 := by
  induction l using List.reverseRecOn with
  | nil => rfl
  | append_singleton l b ih =>
    rw [bytes_to_int, List.foldl_append]
    simp only [List.foldl]
    rw [List.getLastD_concat]
    omega

theorem bytesToHex_length (l : List Nat) : (bytesToHex l).length = 2 * l.length := by
  induction l with
  | nil => rfl
  | cons b l ih =>
    simp only [bytesToHex, String.length, String.mk] at ih ⊢
    simp [byteToHex, List.length_flatten] at ih ⊢
    omega

/-- The canonical encoding, written as the spec writes it: open brace, the
serialized `context` pair, a comma, the serialized `keyId` pair, close brace, no
whitespace. Shared by several claim theorems. -/
theorem derivationData_eq (m : SessionKeyAuthMessage) :
    derivationData m =
      strBytes ("\x7b\"context\":" ++ jsonStringPy m.context ++ ",\"keyId\":" ++
        jsonStringPy m.key_id ++ "\x7d") := by
  have hc : strBytes "\x7b\"context\":" =
      strBytes "\x7b" ++ (strBytes (jsonStringPy "context") ++ strBytes ":") := by decide
  have hk : strBytes ",\"keyId\":" =
      strBytes "," ++ (strBytes (jsonStringPy "keyId") ++ strBytes ":") := by decide
  simp [derivationData, jsonDumpsObj, to_dict, joinPairs, strBytes_append, hc, hk,
    List.append_assoc]

theorem hkdf_foldl_eq (hmacF : List Nat → List Nat → List Nat) (prk info : List Nat) :
    ∀ n, (List.range n).foldl
        (fun st i =>
          let t := hmacF prk (st.1 ++ info ++ [i + 1])
          (t, st.2 ++ t))
        (([] : List Nat), ([] : List Nat))
      = (hkdfSpecT hmacF prk info n, hkdfSpecConcat hmacF prk info n) := by
  intro n
  induction n with
  | zero => rfl
  | succ n ih =>
    rw [List.range_succ, List.foldl_append, ih]
    rfl

theorem hmacF0_len (a b : List Nat) : (hmacF0 a b).length = 32 := by
  simp [hmacF0]
  omega

theorem pubkeyF0_len (sk : List Nat) : (pubkeyF0 sk).length = 64 := by
  simp [pubkeyF0]

theorem hkdf_len32 (hmacF : List Nat → List Nat → List Nat)
    (hlen : ∀ a b, (hmacF a b).length = 32) (ikm info salt : List Nat) :
    (hkdf hmacF ikm info salt 32).length = 32 := by
  simp [hkdf, List.range_succ, hlen]

theorem go_ok_valid (hmacF : List Nat → List Nat → List Nat) (dd : List Nat) :
    ∀ (fuel : Nat) (cand : List Nat) (counter : Nat) (c : List Nat),
      ensureValidGo hmacF dd cand counter fuel = .ok c → validScalar c := by
  intro fuel
  induction fuel with
  | zero => intro cand counter c h; exact absurd h (by simp [ensureValidGo])
  | succ fuel ih =>
    intro cand counter c h
    rw [ensureValidGo] at h
    by_cases hv : validScalar cand
    · rw [if_pos hv] at h
      cases h
      exact hv
    · rw [if_neg hv] at h
      exact ih _ _ _ h

theorem go_ok_len (hmacF : List Nat → List Nat → List Nat)
    (hlen : ∀ a b, (hmacF a b).length = 32) (dd : List Nat) :
    ∀ (fuel : Nat) (cand : List Nat) (counter : Nat) (c : List Nat),
      cand.length = 32 → ensureValidGo hmacF dd cand counter fuel = .ok c →
      c.length = 32 := by
  intro fuel
  induction fuel with
  | zero => intro cand counter c _ h; exact absurd h (by simp [ensureValidGo])
  | succ fuel ih =>
    intro cand counter c hc h
    rw [ensureValidGo] at h
    by_cases hv : validScalar cand
    · rw [if_pos hv] at h
      cases h
      exact hc
    · rw [if_neg hv] at h
      exact ih _ _ _ (hkdf_len32 hmacF hlen _ _ _) h

theorem go_error_msg (hmacF : List Nat → List Nat → List Nat) (dd : List Nat) :
    ∀ (fuel : Nat) (cand : List Nat) (counter : Nat) (e : String),
      ensureValidGo hmacF dd cand counter fuel = .error e → e = exhaustedMsg := by
  intro fuel
  induction fuel with
  | zero =>
    intro cand counter e h
    rw [ensureValidGo] at h
    exact (Except.error.inj h).symm
  | succ fuel ih =>
    intro cand counter e h
    rw [ensureValidGo] at h
    by_cases hv : validScalar cand
    · rw [if_pos hv] at h
      exact absurd h (by simp)
    · rw [if_neg hv] at h
      exact ih _ _ _ h

theorem go_seq_step (hmacF : List Nat → List Nat → List Nat) (dd initial : List Nat)
    (i fuel : Nat) (h : ¬ validScalar (candidateSeq hmacF dd initial i)) :
    ensureValidGo hmacF dd (candidateSeq hmacF dd initial i) i (fuel + 1) =
      ensureValidGo hmacF dd (candidateSeq hmacF dd initial (i + 1)) (i + 1) fuel := by
  rw [ensureValidGo, if_neg h]
  rfl

theorem go_seq_ok_iff (hmacF : List Nat → List Nat → List Nat) (dd initial : List Nat) :
    ∀ (fuel i : Nat) (c : List Nat),
      ensureValidGo hmacF dd (candidateSeq hmacF dd initial i) i fuel = .ok c ↔
      ∃ j, i ≤ j ∧ j < i + fuel ∧ c = candidateSeq hmacF dd initial j ∧
        validScalar (candidateSeq hmacF dd initial j) ∧
        ∀ l, i ≤ l → l < j → ¬ validScalar (candidateSeq hmacF dd initial l) := by
  intro fuel
  induction fuel with
  | zero =>
    intro i c
    constructor
    · intro h
      exact absurd h (by simp [ensureValidGo])
    · rintro ⟨j, h1, h2, -⟩
      omega
  | succ fuel ih =>
    intro i c
    by_cases hv : validScalar (candidateSeq hmacF dd initial i)
    · rw [ensureValidGo, if_pos hv]
      constructor
      · intro h
        have hc : candidateSeq hmacF dd initial i = c := Except.ok.inj h
        exact ⟨i, le_refl i, by omega, hc.symm, hv, fun l hl1 hl2 => absurd hl1 (by omega)⟩
      · rintro ⟨j, h1, h2, h3, h4, h5⟩
        have hji : j = i := by
          by_contra hne
          exact h5 i (le_refl i) (by omega) hv
        subst hji
        rw [h3]
    · rw [go_seq_step hmacF dd initial i fuel hv, ih (i + 1) c]
      constructor
      · rintro ⟨j, h1, h2, h3, h4, h5⟩
        refine ⟨j, by omega, by omega, h3, h4, fun l hl1 hl2 => ?_⟩
        rcases Nat.eq_or_lt_of_le hl1 with heq | hlt
        · rw [← heq]; exact hv
        · exact h5 l (by omega) hl2
      · rintro ⟨j, h1, h2, h3, h4, h5⟩
        have hji : i < j := by
          rcases Nat.eq_or_lt_of_le h1 with heq | hlt
          · rw [← heq] at h4; exact absurd h4 hv
          · exact hlt
        exact ⟨j, by omega, by omega, h3, h4, fun l hl1 hl2 => h5 l (by omega) hl2⟩

theorem go_seq_all_invalid (hmacF : List Nat → List Nat → List Nat) (dd initial : List Nat)
    (h : ∀ j, ¬ validScalar (candidateSeq hmacF dd initial j)) :
    ∀ (fuel i : Nat),
      ensureValidGo hmacF dd (candidateSeq hmacF dd initial i) i fuel = .error exhaustedMsg := by
  intro fuel
  induction fuel with
  | zero => intro i; rfl
  | succ fuel ih =>
    intro i
    rw [go_seq_step hmacF dd initial i fuel (h i)]
    exact ih (i + 1)

theorem iters_seq_all_invalid (hmacF : List Nat → List Nat → List Nat)
    (dd initial : List Nat)
    (h : ∀ j, ¬ validScalar (candidateSeq hmacF dd initial j)) :
    ∀ (fuel i : Nat),
      ensureValidIters hmacF dd (candidateSeq hmacF dd initial i) i fuel = fuel := by
  intro fuel
  induction fuel with
  | zero => intro i; rfl
  | succ fuel ih =>
    intro i
    rw [ensureValidIters, if_neg (h i)]
    have : ensureValidIters hmacF dd
        (hkdf hmacF (candidateSeq hmacF dd initial i ++ toBytes4BE (i + 1))
          SECP256K1_RETRY_INFO dd 32) (i + 1) fuel
        = ensureValidIters hmacF dd (candidateSeq hmacF dd initial (i + 1)) (i + 1) fuel := rfl
    rw [this, ih (i + 1)]
    omega

theorem hkdf_bad (a b c : List Nat) : hkdf hmacFBad a b c 32 = zeros32 := by
  simp [hkdf, hmacFBad, List.range_succ, zeros32, List.take_replicate]

theorem seq_bad (dd : List Nat) : ∀ i, candidateSeq hmacFBad dd zeros32 i = zeros32 := by
  intro i
  induction i with
  | zero => rfl
  | succ i ih => rw [candidateSeq, hkdf_bad]

theorem zeros32_invalid : ¬ validScalar zeros32 := by decide

theorem derive_auth_message (hmacF : List Nat → List Nat → List Nat)
    (signF : List Nat → SessionKeyAuthMessage → List Nat)
    (pubkeyF : List Nat → List Nat) (ethAddrF : List Nat → String)
    (ek : List Nat) (m : SessionKeyAuthMessage) (s : String)
    (kp : DerivedNillionKeypair)
    (hd : derive_nillion_keypair hmacF signF pubkeyF ethAddrF ek m s = .ok kp) :
    kp.auth_message = m := by
  simp only [derive_nillion_keypair] at hd
  split at hd
  · exact absurd hd (by simp)
  · cases hd
    rfl

/-- C1 (amended): whenever `derive_nillion_keypair` succeeds with the default
application secret `"user@secret.com"`, `verify_derived_keypair` on its result and
the same source private key returns `true`. (The original claim, quantified over
every application secret, is refuted by `C1_counterexample`: the verifier
re-derives with the default secret, not the one that produced the keypair.) -/
theorem C1_verify_roundtrip_default_secret
    (hmacF : List Nat → List Nat → List Nat)
    (signF : List Nat → SessionKeyAuthMessage → List Nat)
    (pubkeyF : List Nat → List Nat) (ethAddrF : List Nat → String)
    (ek : List Nat) (m : SessionKeyAuthMessage) (kp : DerivedNillionKeypair)
    (hd : derive_nillion_keypair hmacF signF pubkeyF ethAddrF ek m
      "user@secret.com" = .ok kp) :
    verify_derived_keypair hmacF signF pubkeyF ethAddrF kp ek = .ok true := by
  have hm : kp.auth_message = m :=
    derive_auth_message hmacF signF pubkeyF ethAddrF ek m "user@secret.com" kp hd
  unfold verify_derived_keypair
  rw [hm, hd]
  simp [Except.map]

/-- Witness for C1: the concrete derivation from `k0`, `m0` and the default secret
verifies. -/
theorem C1_verify_roundtrip_default_secret_witness :
    verify_derived_keypair hmacF0 signF0 pubkeyF0 ethAddrF0 kp0 k0 = .ok true :=
  C1_verify_roundtrip_default_secret hmacF0 signF0 pubkeyF0 ethAddrF0 k0 m0 kp0
    (by decide)

/-- C1 counterexample: with the application secret `"x"` instead of the default,
derivation succeeds but verification of the resulting keypair against the same
source key returns `false`, refuting `verify(derive(k, m, s), k) = true` for every
secret `s`. -/
theorem C1_counterexample :
    (derive_nillion_keypair hmacF0 signF0 pubkeyF0 ethAddrF0 k0 m0 "x" >>=
      fun kp => verify_derived_keypair hmacF0 signF0 pubkeyF0 ethAddrF0 kp k0) =
      .ok false := by decide

/-- C2 (amended): `verify_derived_keypair` re-derives with the stored
`auth_message`, the given source key and the default application secret, and
returns `true` exactly when the re-derived DID, private key, compressed public
key and signature equal the stored ones — the uncompressed public key is not
compared. -/
theorem C2_verify_compares_four_fields
    (hmacF : List Nat → List Nat → List Nat)
    (signF : List Nat → SessionKeyAuthMessage → List Nat)
    (pubkeyF : List Nat → List Nat) (ethAddrF : List Nat → String)
    (kp rd : DerivedNillionKeypair) (ek : List Nat)
    (hd : derive_nillion_keypair hmacF signF pubkeyF ethAddrF ek kp.auth_message
      "user@secret.com" = .ok rd) :
    verify_derived_keypair hmacF signF pubkeyF ethAddrF kp ek = .ok true ↔
      rd.did = kp.did ∧ rd.private_key = kp.private_key ∧
      rd.public_key_compressed = kp.public_key_compressed ∧
      rd.eip712_signature = kp.eip712_signature := by
  unfold verify_derived_keypair
  rw [hd]
  simp [Except.map, and_assoc]

/-- Witness for C2: the honest concrete keypair satisfies the four-field
comparison equivalence. -/
theorem C2_verify_compares_four_fields_witness :
    verify_derived_keypair hmacF0 signF0 pubkeyF0 ethAddrF0 kp0 k0 = .ok true ↔
      kp0.did = kp0.did ∧ kp0.private_key = kp0.private_key ∧
      kp0.public_key_compressed = kp0.public_key_compressed ∧
      kp0.eip712_signature = kp0.eip712_signature :=
  C2_verify_compares_four_fields hmacF0 signF0 pubkeyF0 ethAddrF0 kp0 kp0 k0
    (by decide)

/-- C2 counterexample: corrupting the stored uncompressed public key does not make
verification fail, refuting the claim that `verify_derived_keypair` returns true
only if both public-key encodings equal those of the re-derivation. -/
theorem C2_counterexample :
    verify_derived_keypair hmacF0 signF0 pubkeyF0 ethAddrF0 kp0Tampered k0 = .ok true
    ∧ kp0Tampered.public_key_uncompressed ≠ kp0.public_key_uncompressed :=
  ⟨by decide, by decide⟩

/-- C3: the canonical derivation context is the UTF-8 bytes of
`{"context":<json(context)>,"keyId":<json(key_id)>}` with no whitespace and the
key `context` serialized before `keyId`; on the spec's example it is byte-for-byte
the bytes of `{"context":"nillion","keyId":"1"}`; and equal messages always encode
to identical bytes. -/
theorem C3_canonical_encoding (m : SessionKeyAuthMessage) :
    derivationData m =
      strBytes ("\x7b\"context\":" ++ jsonStringPy m.context ++ ",\"keyId\":" ++
        jsonStringPy m.key_id ++ "\x7d")
    ∧ derivationData ⟨"1", "nillion"⟩ = strBytes "\x7b\"context\":\"nillion\",\"keyId\":\"1\"\x7d"
    ∧ ∀ m2, m = m2 → derivationData m = derivationData m2 :=
  ⟨derivationData_eq m, by decide, fun _ h => by rw [h]⟩

/-- Witness for C3: the concrete example encoding, via the theorem. -/
theorem C3_canonical_encoding_witness :
    derivationData ⟨"1", "nillion"⟩ = strBytes "\x7b\"context\":\"nillion\",\"keyId\":\"1\"\x7d" :=
  (C3_canonical_encoding ⟨"1", "nillion"⟩).2.1

/-- C4: an in-range initial candidate is returned unchanged (any positive attempt
budget, in particular the source default 1000), and in general
`ensure_valid_secp256k1_key` returns precisely the first in-range element of the
retry chain `candidateSeq`, whose step is
`hkdf(candidate || be32(counter), "SECP256K1_RETRY", salt = derivation_data, 32)`
with the 4-byte big-endian counter taking values 1, 2, 3, ... -/
theorem C4_retry_chain (hmacF : List Nat → List Nat → List Nat)
    (key_material derivation_data : List Nat) :
    (validScalar key_material →
      ∀ ma, ensure_valid_secp256k1_key hmacF key_material derivation_data (ma + 1) =
        .ok key_material)
    ∧ (∀ ma c, ensure_valid_secp256k1_key hmacF key_material derivation_data ma = .ok c ↔
        ∃ j, j < ma ∧ c = candidateSeq hmacF derivation_data key_material j ∧
          validScalar (candidateSeq hmacF derivation_data key_material j) ∧
          ∀ l, l < j → ¬ validScalar (candidateSeq hmacF derivation_data key_material l)) := by
  constructor
  · intro h ma
    rw [ensure_valid_secp256k1_key, ensureValidGo, if_pos h]
  · intro ma c
    have hiff := go_seq_ok_iff hmacF derivation_data key_material ma 0 c
    simpa [ensure_valid_secp256k1_key, candidateSeq] using hiff

/-- Witness for C4: a concrete in-range candidate returned unchanged at the
default budget, and a concrete out-of-range candidate (the all-zero block) for
which the loop returns the first re-derived candidate of the retry chain. -/
theorem C4_retry_chain_witness :
    ensure_valid_secp256k1_key hmacF0 k0 (derivationData m0) 1000 = .ok k0
    ∧ ensure_valid_secp256k1_key hmacF0 zeros32 [9] 1000 =
        .ok (candidateSeq hmacF0 [9] zeros32 1) :=
  ⟨(C4_retry_chain hmacF0 k0 (derivationData m0)).1 (by decide) 999,
   ((C4_retry_chain hmacF0 zeros32 [9]).2 1000 (candidateSeq hmacF0 [9] zeros32 1)).mpr
     ⟨1, by omega, rfl, by decide, fun l hl => by
        have hl0 : l = 0 := by omega
        subst hl0
        decide⟩⟩

/-- C5: when every candidate of the retry chain is out of range, the loop fails
with the `DerivationExhausted` error for every attempt budget, its body runs
exactly `max_attempts` times, and an out-of-range scalar is never returned. -/
theorem C5_exhaustion (hmacF : List Nat → List Nat → List Nat)
    (key_material derivation_data : List Nat)
    (h : ∀ i, ¬ validScalar (candidateSeq hmacF derivation_data key_material i)) :
    (∀ ma, ensure_valid_secp256k1_key hmacF key_material derivation_data ma =
      .error exhaustedMsg)
    ∧ (∀ ma, ensureValidIters hmacF derivation_data key_material 0 ma = ma)
    ∧ (∀ ma c, ensure_valid_secp256k1_key hmacF key_material derivation_data ma = .ok c →
        validScalar c) := by
  refine ⟨fun ma => ?_, fun ma => ?_,
    fun ma c hc => go_ok_valid hmacF derivation_data ma key_material 0 c hc⟩
  · have he := go_seq_all_invalid hmacF derivation_data key_material h ma 0
    simpa [ensure_valid_secp256k1_key, candidateSeq] using he
  · have hi := iters_seq_all_invalid hmacF derivation_data key_material h ma 0
    simpa [candidateSeq] using hi

/-- Witness for C5: the all-zero synthetic HMAC stub exhausts a budget of 5 in
exactly 5 iterations. -/
theorem C5_exhaustion_witness :
    ensure_valid_secp256k1_key hmacFBad zeros32 [] 5 = .error exhaustedMsg
    ∧ ensureValidIters hmacFBad [] zeros32 0 5 = 5 :=
  have h : ∀ i, ¬ validScalar (candidateSeq hmacFBad [] zeros32 i) := fun i => by
    rw [seq_bad]
    exact zeros32_invalid
  ⟨(C5_exhaustion hmacFBad zeros32 [] h).1 5, (C5_exhaustion hmacFBad zeros32 [] h).2.1 5⟩

/-- C6: the source `hkdf` equals the extract-then-expand reference of the spec for
all inputs and output lengths, and the default salt constant is the ASCII bytes of
`SIGNATURE_INTEGRATED_KDF_v1`. -/
theorem C6_hkdf_matches_reference (hmacF : List Nat → List Nat → List Nat)
    (ikm info salt : List Nat) (len : Nat) :
    hkdf hmacF ikm info salt len = hkdfSpec hmacF ikm info salt len
    ∧ COMMON_KDF_SALT =
      [83, 73, 71, 78, 65, 84, 85, 82, 69, 95, 73, 78, 84, 69, 71, 82, 65, 84,
       69, 68, 95, 75, 68, 70, 95, 118, 49] := by
  constructor
  · have hn : len + 32 - 1 = len + 31 := by omega
    simp only [hkdf, hkdfSpec]
    rw [hn, hkdf_foldl_eq]
  · decide

/-- C7: every scalar returned by `ensure_valid_secp256k1_key` (from 32-byte initial
material) and every `private_key` produced by `derive_nillion_keypair` is 32 bytes
with big-endian value strictly between 0 and the secp256k1 order, given that the
HMAC primitive produces 32-byte digests (as HMAC-SHA-256 does). -/
theorem C7_scalar_validity (hmacF : List Nat → List Nat → List Nat)
    (hlen : ∀ a b, (hmacF a b).length = 32) :
    (∀ key_material derivation_data ma c,
        key_material.length = 32 →
        ensure_valid_secp256k1_key hmacF key_material derivation_data ma = .ok c →
        c.length = 32 ∧ 0 < bytes_to_int c ∧ bytes_to_int c < SECP256K1_ORDER)
    ∧ (∀ signF pubkeyF ethAddrF ek m s kp,
        derive_nillion_keypair hmacF signF pubkeyF ethAddrF ek m s = .ok kp →
        kp.private_key.length = 32 ∧ 0 < bytes_to_int kp.private_key ∧
          bytes_to_int kp.private_key < SECP256K1_ORDER) := by
  constructor
  · intro key dd ma c hk hc
    have hv := go_ok_valid hmacF dd ma key 0 c hc
    exact ⟨go_ok_len hmacF hlen dd ma key 0 c hk hc, hv.1, hv.2⟩
  · intro signF pubkeyF ethAddrF ek m s kp hd
    simp only [derive_nillion_keypair] at hd
    split at hd
    · exact absurd hd (by simp)
    · next pk heq =>
      cases hd
      have hv := go_ok_valid hmacF (derivationData m) 1000 _ 0 pk heq
      have hl := go_ok_len hmacF hlen (derivationData m) 1000 _ 0 pk
        (hkdf_len32 hmacF hlen _ _ _) heq
      exact ⟨hl, hv.1, hv.2⟩

/-- Witness for C7: the concrete derived keypair has a valid 32-byte scalar. -/
theorem C7_scalar_validity_witness :
    kp0.private_key.length = 32 ∧ 0 < bytes_to_int kp0.private_key ∧
      bytes_to_int kp0.private_key < SECP256K1_ORDER :=
  (C7_scalar_validity hmacF0 hmacF0_len).2 signF0 pubkeyF0 ethAddrF0 k0 m0
    "user@secret.com" kp0 (by decide)

/-- C8: for every keypair produced by `derive_nillion_keypair` (with a 64-byte
uncompressed public-key primitive, as the ecdsa library guarantees), the compressed
public key is 33 bytes: a parity byte 0x02 for an even y-coordinate and 0x03 for an
odd one, followed by the 32-byte x-coordinate (the first 32 bytes of the
uncompressed key); and the DID is `did:nil:` followed by the lowercase hex of the
compressed key, 74 characters in total. -/
theorem C8_compressed_and_did (hmacF : List Nat → List Nat → List Nat)
    (signF : List Nat → SessionKeyAuthMessage → List Nat)
    (pubkeyF : List Nat → List Nat) (ethAddrF : List Nat → String)
    (hpub : ∀ sk, (pubkeyF sk).length = 64)
    (ek : List Nat) (m : SessionKeyAuthMessage) (s : String)
    (kp : DerivedNillionKeypair)
    (hd : derive_nillion_keypair hmacF signF pubkeyF ethAddrF ek m s = .ok kp) :
    kp.public_key_compressed.length = 33
    ∧ kp.public_key_compressed =
        (if bytes_to_int (kp.public_key_uncompressed.drop 32) % 2 = 0 then [2] else [3])
          ++ kp.public_key_uncompressed.take 32
    ∧ kp.did = "did:nil:" ++ bytesToHex kp.public_key_compressed
    ∧ kp.did.length = 74 := by
  simp only [derive_nillion_keypair] at hd
  split at hd
  · exact absurd hd (by simp)
  · next pk heq =>
    cases hd
    have hparity := bytes_to_int_parity ((pubkeyF pk).drop 32)
    have hlen33 :
        ((if ((pubkeyF pk).drop 32).getLastD 0 % 2 = 1 then [3] else [2]) ++
          (pubkeyF pk).take 32).length = 33 := by
      rcases Nat.mod_two_eq_zero_or_one (((pubkeyF pk).drop 32).getLastD 0) with h0 | h1
      · rw [if_neg (by omega)]
        simp [List.length_take, hpub]
      · rw [if_pos h1]
        simp [List.length_take, hpub]
    refine ⟨hlen33, ?_, rfl, ?_⟩
    · dsimp only
      rcases Nat.mod_two_eq_zero_or_one (((pubkeyF pk).drop 32).getLastD 0) with h0 | h1
      · rw [if_neg (by omega), if_pos (by omega)]
      · rw [if_pos h1, if_neg (by omega)]
    · rw [String.length_append, bytesToHex_length, hlen33]
      decide

/-- Witness for C8: the concrete derived keypair's compressed key and DID shape. -/
theorem C8_compressed_and_did_witness :
    kp0.public_key_compressed.length = 33
    ∧ kp0.public_key_compressed =
        (if bytes_to_int (kp0.public_key_uncompressed.drop 32) % 2 = 0 then [2] else [3])
          ++ kp0.public_key_uncompressed.take 32
    ∧ kp0.did = "did:nil:" ++ bytesToHex kp0.public_key_compressed
    ∧ kp0.did.length = 74 :=
  C8_compressed_and_did hmacF0 signF0 pubkeyF0 ethAddrF0 pubkeyF0_len k0 m0
    "user@secret.com" kp0 (by decide)

/-- C9 (amended): the pipeline performs no emptiness validation: for a message with
empty `key_id` or empty `context`, the encoder still produces the canonical bytes
and the only possible failure of `derive_nillion_keypair` is loop exhaustion —
there is no `InvalidInput` rejection. (The original claim is refuted by
`C9_counterexample`.) -/
theorem C9_no_input_validation (hmacF : List Nat → List Nat → List Nat)
    (signF : List Nat → SessionKeyAuthMessage → List Nat)
    (pubkeyF : List Nat → List Nat) (ethAddrF : List Nat → String)
    (ek : List Nat) (user_secret : String) (m : SessionKeyAuthMessage)
    (h : m.key_id = "" ∨ m.context = "") :
    (∀ e, derive_nillion_keypair hmacF signF pubkeyF ethAddrF ek m user_secret =
        .error e → e = exhaustedMsg)
    ∧ derivationData m =
        strBytes ("\x7b\"context\":" ++ jsonStringPy m.context ++ ",\"keyId\":" ++
          jsonStringPy m.key_id ++ "\x7d") := by
  refine ⟨fun e hd => ?_, derivationData_eq m⟩
  simp only [derive_nillion_keypair] at hd
  split at hd
  · next e2 heq =>
    have h2 : e2 = e := Except.error.inj hd
    rw [← h2]
    exact go_error_msg hmacF (derivationData m) 1000 _ 0 e2 heq
  · exact absurd hd (by simp)

/-- Witness for C9: a concrete message with empty key_id. -/
theorem C9_no_input_validation_witness :
    (∀ e, derive_nillion_keypair hmacF0 signF0 pubkeyF0 ethAddrF0 k0 ⟨"", "x"⟩ "s" =
        .error e → e = exhaustedMsg)
    ∧ derivationData ⟨"", "x"⟩ =
        strBytes ("\x7b\"context\":" ++ jsonStringPy "x" ++ ",\"keyId\":" ++
          jsonStringPy "" ++ "\x7d") :=
  C9_no_input_validation hmacF0 signF0 pubkeyF0 ethAddrF0 k0 "s" ⟨"", "x"⟩ (Or.inl rfl)

/-- C9 counterexample: with both fields empty the encoder produces
`{"context":"","keyId":""}` and derivation succeeds — no `InvalidInput` rejection
happens anywhere in the pipeline. -/
theorem C9_counterexample :
    derivationData ⟨"", ""⟩ = strBytes "\x7b\"context\":\"\",\"keyId\":\"\"\x7d"
    ∧ (derive_nillion_keypair hmacF0 signF0 pubkeyF0 ethAddrF0 k0 ⟨"", ""⟩
        "user@secret.com").map (fun _ => true) = .ok true :=
  ⟨by decide, by decide⟩

/-- C10: with `max_attempts = 0`, `ensure_valid_secp256k1_key` fails with the
exhaustion error for every input — the range check lives inside the bounded loop,
so even an already-valid candidate (which a budget of 1 would return unchanged) is
never returned. -/
theorem C10_zero_budget (hmacF : List Nat → List Nat → List Nat)
    (key_material derivation_data : List Nat) :
    ensure_valid_secp256k1_key hmacF key_material derivation_data 0 =
      .error exhaustedMsg
    ∧ (validScalar key_material →
        ensure_valid_secp256k1_key hmacF key_material derivation_data 1 =
          .ok key_material) := by
  constructor
  · rfl
  · intro h
    rw [ensure_valid_secp256k1_key, ensureValidGo, if_pos h]

/-- Witness for C10: a concrete valid candidate that budget 0 rejects and budget 1
returns. -/
theorem C10_zero_budget_witness :
    ensure_valid_secp256k1_key hmacF0 k0 [] 0 = .error exhaustedMsg
    ∧ ensure_valid_secp256k1_key hmacF0 k0 [] 1 = .ok k0 :=
  ⟨(C10_zero_budget hmacF0 k0 []).1, (C10_zero_budget hmacF0 k0 []).2 (by decide)⟩

end KeyDerivation
